import Mathlib

/-!
# Verification of the oursql node client and SQL envelope model

A shallow embedding of the repository's node-to-node client (package
`nodeclient`, file `src/unnamed/part_000`) and of the transactional SQL
envelope model (`src/node/dbquery/parsed.go`), together with theorems
settling the specification's claims about them.

Bytes are modelled as `Nat` values (< 256 in every real run); Go byte
slices become `List Nat`; Go strings become Lean `String` or `List Char`;
a Go `error` result becomes `Option String` (`none` = nil error) or a
dedicated error inductive where the spec distinguishes error kinds.
Network I/O itself (dialing, writing, reading) is outside the embedding:
the pure post-read logic is modelled as a function of the bytes that were
read, and the generic `gob` serialization of payload structures is
abstracted as the byte sequence it produced or as an abstract decoder
parameter.
-/

/-! ## Address validation (nodeclient.CheckNodeAddress) -/

/-- Peer address, from `lib/net.NodeAddr`: a host string and an integer port. -/
structure NodeAddr where
  Host : String
  Port : Int
deriving DecidableEq

/-- Embedding of `NodeClient.CheckNodeAddress` (part_000 lines 255-266):
three sequential checks, each returning a fresh error; `none` models the
`nil` error of the success path.  The function performs no I/O. -/
def CheckNodeAddress (address : NodeAddr) : Option String :=
  if address.Port < 1024 then some "Node Address Port has wrong value"
  else if address.Port > 65536 then some "Node Address Port has wrong value"
  else if address.Host = "" then some "Node Address Host has wrong value"
  else none

/-! ## Wire framing (nodeclient.doBuildCommandData) -/

/-- Modelled from the spec: the width of the fixed-width command identifier
(`lib/net.CommandToBytes` is not part of the sources under review; spec
section 4.1 only states that every catalog command name fits the fixed
width).  The concrete value is irrelevant to the claims, which quantify
over command names that fit; it only needs to accommodate the longest
catalog name (12 bytes). -/
def commandLength : Nat := 20

/-- Modelled from the spec: serialization of a command name into the
fixed-width identifier — the name's bytes padded with zero bytes up to
`commandLength` (spec section 4.1). -/
def commandToBytes (cmd : List Nat) : List Nat :=
  cmd ++ List.replicate (commandLength - cmd.length) 0

/-- Modelled from the spec: the inverse of `commandToBytes` — strip the
zero-byte padding from the fixed-width identifier (spec section 4.1 says
decoding is the exact inverse of encoding). -/
def bytesToCommand (bs : List Nat) : List Nat :=
  ((bs.reverse.dropWhile (fun b => b == 0)).reverse)

/-- `binary.LittleEndian.PutUint32` after Go's truncating `uint32(-)`
conversion: the four little-endian bytes of `n` modulo 2^32. -/
def putUint32LE (n : Nat) : List Nat :=
  [n % 256, n / 256 % 256, n / 65536 % 256, n / 16777216 % 256]

/-- `binary.LittleEndian.Uint32` on a four-byte slice. -/
def readUint32LE (bs : List Nat) : Nat :=
  match bs with
  | [a, b, c, d] => a + 256 * b + 65536 * c + 16777216 * d
  | _ => 0

/-- Embedding of `NodeClient.doBuildCommandData` (part_000 lines 722-756).
`payload` stands for the bytes the generic gob encoder produced for the
`data` argument (or `[]` when `data` was nil); the framing itself is
byte-for-byte the source: fixed-width command, 4-byte LE payload length,
4-byte LE extra length, payload, and the extra bytes only when non-empty. -/
def doBuildCommandData (command payload extra : List Nat) : List Nat :=
  let bs := putUint32LE payload.length
  let request := commandToBytes command ++ bs
  let bs2 := putUint32LE extra.length
  let request2 := request ++ bs2
  let request3 := request2 ++ payload
  if 0 < extra.length then request3 ++ extra else request3

/-- Modelled from the spec: envelope decoding, the exact inverse of the
framing (spec sections 4.1 and 6); rejects envelopes shorter than the
fixed header and envelopes whose body does not match the declared
lengths. -/
def decodeEnvelope (bs : List Nat) : Option (List Nat × List Nat × List Nat) :=
  if bs.length < commandLength + 8 then none
  else
    let cmd := bytesToCommand (bs.take commandLength)
    let rest := bs.drop commandLength
    let plen := readUint32LE (rest.take 4)
    let rest2 := rest.drop 4
    let elen := readUint32LE (rest2.take 4)
    let body := rest2.drop 4
    if body.length = plen + elen then
      some (cmd, body.take plen, (body.drop plen).take elen)
    else none

/-! ## Wait-response processing (nodeclient.SendDataWaitResponse) -/

/-- The error kinds of the client, from `lib/net`'s error constructors as
called by part_000 (`NewNoResponseError`, `NewCanNotParseResponseError`,
...); `remoteError` is the `errors.New(payload)` of line 868, carrying the
peer's error text verbatim. -/
inductive NetError where
  | noResponse : String → NetError
  | canNotParseResponse : String → NetError
  | remoteError : String → NetError
deriving DecidableEq

/-- Embedding of the response-processing tail of
`NodeClient.SendDataWaitResponse` (part_000 lines 843-879), as a pure
function of the bytes read from the peer before it closed the connection.
`decodeString` abstracts `gob` decoding of a string (the failure branch),
`decodePayload` abstracts `gob` decoding into the caller's `datapayload`;
`decodePayload = none` models a nil `datapayload` argument.  On success
the decoded value (when any) is returned. -/
def SendDataWaitResponse {α : Type} (decodeString : List Nat → Except String String)
    (decodePayload : Option (List Nat → Except String α))
    (response : List Nat) : Except NetError (Option α) :=
  match response with
  | [] =>
    Except.error (NetError.noResponse
      "Received 0 bytes as a response. Expected at least 1 byte")
  | status :: body =>
    if status = 1 then
      match decodePayload with
      | none => Except.ok none
      | some dec =>
        match dec body with
        | Except.error e => Except.error (NetError.canNotParseResponse e)
        | Except.ok v => Except.ok (some v)
    else
      match decodeString body with
      | Except.error e => Except.error (NetError.canNotParseResponse e)
      | Except.ok payload => Except.error (NetError.remoteError payload)

/-! ## SQL envelope model (node/dbquery/parsed.go) -/

/-- Modelled from the spec: the query-kind constant `lib.QueryKindSelect`
of the external `lib` package (the package is not among the sources under
review; only distinctness of the constants matters to the claims). -/
def queryKindSelect : String := "select"

/-- Modelled from the spec: `lib.QueryKindCreate`. -/
def queryKindCreate : String := "create"

/-- Modelled from the spec: `lib.QueryKindDrop`. -/
def queryKindDrop : String := "drop"

/-- Modelled from the spec: `lib.QueryKindDelete`. -/
def queryKindDelete : String := "delete"

/-- Modelled from the spec: `lib.QueryKindInsert`. -/
def queryKindInsert : String := "insert"

/-- Modelled from the spec: `lib.QueryKindUpdate`. -/
def queryKindUpdate : String := "update"

/-- The capability interface `sqlparser.SQLQueryParserInterface` as used by
parsed.go: exactly the three accessors GetKind, GetTable, GetComments
(spec section 9 models it as a narrow interface with those accessors). -/
structure SQLQueryParser where
  GetKind : String
  GetTable : String
  GetComments : List String

/-- Embedding of the `QueryParsed` struct (parsed.go lines 12-21). -/
structure QueryParsed where
  SQL : String
  PubKey : List Nat
  Signature : List Nat
  TransactionBytes : List Nat
  KeyCol : String
  KeyVal : String
  RowBeforeQuery : List (String × String)
  Structure : SQLQueryParser

/-- `QueryParsed.ReferenceID` (parsed.go lines 23-25). -/
def QueryParsed.ReferenceID (qp : QueryParsed) : String :=
  qp.Structure.GetTable ++ ":" ++ qp.KeyVal

/-- `QueryParsed.GetKeyValue` (parsed.go lines 26-28). -/
def QueryParsed.GetKeyValue (qp : QueryParsed) : String :=
  qp.KeyVal

/-- `QueryParsed.IsSelect` (parsed.go lines 31-33). -/
def QueryParsed.IsSelect (qp : QueryParsed) : Bool :=
  qp.Structure.GetKind == queryKindSelect

/-- `QueryParsed.IsUpdate` (parsed.go lines 36-42). -/
def QueryParsed.IsUpdate (qp : QueryParsed) : Bool :=
  qp.Structure.GetKind == queryKindCreate ||
    qp.Structure.GetKind == queryKindDrop ||
    qp.Structure.GetKind == queryKindDelete ||
    qp.Structure.GetKind == queryKindInsert ||
    qp.Structure.GetKind == queryKindUpdate

/-- The two-way classification of spec section 4.5, derived from the
predicates of parsed.go: a statement is processed as an update exactly
when `IsUpdate` holds, and as a select otherwise. -/
inductive QueryClass where
  | select : QueryClass
  | update : QueryClass
deriving DecidableEq

/-- `classify(parsed)` of spec section 4.5, expressed through the source's
`IsUpdate` predicate. -/
def classifyQuery (qp : QueryParsed) : QueryClass :=
  if qp.IsUpdate then QueryClass.update else QueryClass.select

/-- Modelled from the spec: `database.Quote` (package `node/database` is
not among the sources under review; spec sections 4.5 and 8 state that it
applies SQL-quote escaping to the value, escaping an embedded quote as a
backslash-quote). -/
def quoteChars : List Char → List Char
  | [] => []
  | '\'' :: rest => '\\' :: '\'' :: quoteChars rest
  | c :: rest => c :: quoteChars rest

/-- Modelled from the spec: `database.Quote` on strings. -/
def Quote (s : String) : String :=
  String.mk (quoteChars s.data)

/-- Embedding of `QueryParsed.buildRollbackSQL` (parsed.go lines 45-58):
the result pair models Go's `(string, error)` return, `none` being the
nil error. -/
def QueryParsed.buildRollbackSQL (qp : QueryParsed) : String × Option String :=
  if qp.Structure.GetKind = queryKindCreate then
    ("DROP TABLE " ++ qp.Structure.GetTable, none)
  else if qp.Structure.GetKind = queryKindDrop then
    ("", none)
  else if qp.Structure.GetKind = queryKindInsert then
    ("DELETE FROM " ++ qp.Structure.GetTable ++ " WHERE " ++ qp.KeyCol ++
      "='" ++ Quote qp.KeyVal ++ "'", none)
  else ("", none)

/-! ### Go regexp semantics for the comment markers

parsed.go compiles the patterns `SIGN:([^;]+);`, `DATA:([^;]+);` and
`PUBKEY:([^;]+);` and calls `FindAllString(comment, -1)`, which in Go
returns the list of all successive non-overlapping full matches of the
expression (not capture groups).  For a pattern of the shape
marker-then-one-or-more-non-semicolon-characters-then-semicolon this is
computed directly: scan left to right; at each position, if the literal
marker is a prefix and is followed by a non-empty semicolon-free run and
then a semicolon, that whole stretch is a match and scanning resumes
after it, otherwise scanning advances one character. -/

/-- Attempt a match of the pattern marker-([^;]+); at the start of `s`;
on success return the full match text and the remainder of `s` after it. -/
def matchMarkerAt (marker s : List Char) : Option (List Char × List Char) :=
  if marker.isPrefixOf s then
    let rest := s.drop marker.length
    let run := rest.takeWhile (fun c => c ≠ ';')
    match rest.drop run.length with
    | ';' :: after => if run.isEmpty then none else some (marker ++ run ++ [';'], after)
    | _ => none
  else none

/-- Fuelled scanning loop for `regexFindAllMarker`; every step either
consumes one character or a whole match (at least two characters), so
`s.length` fuel always suffices. -/
def regexFindAllMarkerAux (marker : List Char) : Nat → List Char → List (List Char)
  | 0, _ => []
  | _, [] => []
  | fuel + 1, c :: rest =>
    match matchMarkerAt marker (c :: rest) with
    | some (m, after) => m :: regexFindAllMarkerAux marker fuel after
    | none => regexFindAllMarkerAux marker fuel rest

/-- Go's `regexp.FindAllString(comment, -1)` for a pattern of the shape
marker-([^;]+); — all successive non-overlapping full matches. -/
def regexFindAllMarker (marker s : List Char) : List (List Char) :=
  regexFindAllMarkerAux marker s.length s

/-! ### Go base64.StdEncoding.DecodeString

Standard alphabet with mandatory padding; carriage returns and newlines
are skipped; decoding proceeds by 4-character quanta and, like Go, on a
malformed quantum it returns the bytes decoded from the quanta before it
together with a non-nil error. -/

/-- Value of a standard-alphabet base64 character. -/
def b64index (c : Char) : Option Nat :=
  if 'A' ≤ c ∧ c ≤ 'Z' then some (c.toNat - 65)
  else if 'a' ≤ c ∧ c ≤ 'z' then some (c.toNat - 97 + 26)
  else if '0' ≤ c ∧ c ≤ '9' then some (c.toNat - 48 + 52)
  else if c = '+' then some 62
  else if c = '/' then some 63
  else none

/-- Decode one 4-character quantum; `final` tells whether this is the last
quantum of the input (padding is legal only there). -/
def b64chunk (a b c d : Char) (final : Bool) : Option (List Nat) :=
  match b64index a, b64index b with
  | some va, some vb =>
    if c = '=' then
      if final && (d == '=') then some [va * 4 + vb / 16] else none
    else
      match b64index c with
      | some vc =>
        if d = '=' then
          if final then some [va * 4 + vb / 16, vb % 16 * 16 + vc / 4] else none
        else
          match b64index d with
          | some vd => some [va * 4 + vb / 16, vb % 16 * 16 + vc / 4, vc % 4 * 64 + vd]
          | none => none
      | none => none
  | _, _ => none

/-- Quantum-by-quantum decoding with Go's partial-output-on-error
behaviour. -/
def b64decodeGo : List Char → List Nat × Option String
  | [] => ([], none)
  | a :: b :: c :: d :: rest =>
    match b64chunk a b c d rest.isEmpty with
    | some bytesOut =>
      let tail := b64decodeGo rest
      (bytesOut ++ tail.1, tail.2)
    | none => ([], some "illegal base64 data at input byte")
  | _ => ([], some "illegal base64 data at input byte")

/-- Go's `base64.StdEncoding.DecodeString`, returning the (possibly
partial) decoded bytes and an error flag, as the Go function does. -/
def base64DecodeString (s : List Char) : List Nat × Option String :=
  b64decodeGo (s.filter (fun c => ¬(c = '\n' ∨ c = '\r')))

/-- Embedding of `QueryParsed.parseInfoFromComments` (parsed.go lines
61-125).  Result order follows the Go named returns
`(PubKey, Signature, TransactionBytes, err)`.  The `regexp.Compile` error
branches are dead (the three patterns are fixed valid literals) and are
not represented.  As in the source, each field is decoded only when the
corresponding pattern has exactly two full matches in the first comment,
the text decoded then being the second full match (`s[1]`), and a decode
error aborts the extraction, returning whatever the named return values
hold at that point. -/
def QueryParsed.parseInfoFromComments (qp : QueryParsed) :
    List Nat × List Nat × List Nat × Option String :=
  match qp.Structure.GetComments with
  | [] => ([], [], [], none)
  | comment :: _ =>
    let s1 := regexFindAllMarker "SIGN:".data comment.data
    let sigR := if s1.length = 2 then base64DecodeString (s1.getD 1 []) else ([], none)
    if sigR.2.isSome then ([], sigR.1, [], sigR.2)
    else
      let s2 := regexFindAllMarker "DATA:".data comment.data
      let tbR := if s2.length = 2 then base64DecodeString (s2.getD 1 []) else ([], none)
      if tbR.2.isSome then ([], sigR.1, tbR.1, tbR.2)
      else
        let s3 := regexFindAllMarker "PUBKEY:".data comment.data
        let pkR := if s3.length = 2 then base64DecodeString (s3.getD 1 []) else ([], none)
        if pkR.2.isSome then (pkR.1, sigR.1, tbR.1, pkR.2)
        else (pkR.1, sigR.1, tbR.1, none)

/-! ## Helper lemmas -/

lemma putUint32LE_length (n : Nat) : (putUint32LE n).length = 4 := rfl

lemma commandToBytes_length (cmd : List Nat) (h : cmd.length ≤ commandLength) :
    (commandToBytes cmd).length = commandLength := by
  simp [commandToBytes]
  omega

lemma doBuildCommandData_flat (c p e : List Nat) :
    doBuildCommandData c p e =
      commandToBytes c ++ (putUint32LE p.length ++ (putUint32LE e.length ++ (p ++ e))) := by
  unfold doBuildCommandData
  by_cases h : 0 < e.length
  · simp [h, List.append_assoc]
  · have he : e = [] := by
      cases e with
      | nil => rfl
      | cons a l => simp at h
    simp [he]

lemma readUint32LE_putUint32LE (n : Nat) (h : n < 4294967296) :
    readUint32LE (putUint32LE n) = n := by
  simp [readUint32LE, putUint32LE]
  omega

lemma dropWhile_zeros_replicate_append (k : Nat) (l : List Nat) :
    (List.replicate k 0 ++ l).dropWhile (fun b => b == 0) =
      l.dropWhile (fun b => b == 0) := by
  induction k with
  | zero => simp
  | succ m ih => simp [List.replicate_succ, ih]

lemma bytesToCommand_commandToBytes (cmd : List Nat) (hz : cmd.getLast? ≠ some 0) :
    bytesToCommand (commandToBytes cmd) = cmd := by
  unfold bytesToCommand commandToBytes
  rw [List.reverse_append, List.reverse_replicate, dropWhile_zeros_replicate_append]
  cases hcr : cmd.reverse with
  | nil =>
    have : cmd = [] := by simpa using congrArg List.reverse hcr
    simp [this]
  | cons x xs =>
    have hx : x ≠ 0 := by
      have hh : cmd.getLast? = some x := by
        rw [← List.head?_reverse, hcr]
        rfl
      intro h0
      rw [h0] at hh
      exact hz hh
    rw [List.dropWhile_cons_of_neg (by simp [hx])]
    rw [← hcr, List.reverse_reverse]

/-! ## Claim theorems -/

/-- Claim C1, counterexample: contrary to the claim, the address check
accepts Port = 1024 and Port = 65536 (the code rejects only Port < 1024
and Port > 65536), so neither boundary value fails. -/
theorem CheckNodeAddress_boundary_counterexample :
    CheckNodeAddress ⟨"localhost", 1024⟩ = none ∧
      CheckNodeAddress ⟨"localhost", 65536⟩ = none := by
  constructor <;> rfl

/-- Claim C1, amended: the address check succeeds exactly when
1024 ≤ Port ≤ 65536 and the host is non-empty; in particular every
address with Port in [1025, 65535] and non-empty Host passes, and
Port = 0 or an empty Host fails, but the boundary values 1024 and 65536
are accepted.  No I/O is involved: the check is a pure function of the
address. -/
theorem CheckNodeAddress_characterization (a : NodeAddr) :
    CheckNodeAddress a = none ↔
      (1024 ≤ a.Port ∧ a.Port ≤ 65536 ∧ ¬(a.Host = "")) := by
  unfold CheckNodeAddress
  split_ifs with h1 h2 h3
  · exact ⟨fun hc => absurd hc (by simp), fun ⟨ha, hb, hh⟩ => absurd h1 (by omega)⟩
  · exact ⟨fun hc => absurd hc (by simp), fun ⟨ha, hb, hh⟩ => absurd h2 (by omega)⟩
  · exact ⟨fun hc => absurd hc (by simp), fun ⟨ha, hb, hh⟩ => absurd h3 hh⟩
  · exact ⟨fun _ => ⟨by omega, by omega, h3⟩, fun _ => rfl⟩

/-- Claim C5: the classification into select/update returns update exactly
when the parsed kind is one of Create, Drop, Delete, Insert, Update, and
returns select for every other kind (the select kind included). -/
theorem classifyQuery_characterization (qp : QueryParsed) :
    (classifyQuery qp = QueryClass.update ↔
      (qp.Structure.GetKind = queryKindCreate ∨ qp.Structure.GetKind = queryKindDrop ∨
        qp.Structure.GetKind = queryKindDelete ∨ qp.Structure.GetKind = queryKindInsert ∨
        qp.Structure.GetKind = queryKindUpdate)) ∧
    (classifyQuery qp = QueryClass.select ↔
      ¬(qp.Structure.GetKind = queryKindCreate ∨ qp.Structure.GetKind = queryKindDrop ∨
        qp.Structure.GetKind = queryKindDelete ∨ qp.Structure.GetKind = queryKindInsert ∨
        qp.Structure.GetKind = queryKindUpdate)) := by
  have h : qp.IsUpdate = true ↔
      (qp.Structure.GetKind = queryKindCreate ∨ qp.Structure.GetKind = queryKindDrop ∨
        qp.Structure.GetKind = queryKindDelete ∨ qp.Structure.GetKind = queryKindInsert ∨
        qp.Structure.GetKind = queryKindUpdate) := by
    simp [QueryParsed.IsUpdate]
    tauto
  by_cases hb : qp.IsUpdate = true
  · have hd := h.mp hb
    constructor
    · simp only [classifyQuery, hb, if_true]
      tauto
    · simp only [classifyQuery, hb, if_true]
      constructor
      · intro hc
        exact absurd hc (by simp)
      · intro hc
        exact absurd hd hc
  · have hd : ¬(qp.Structure.GetKind = queryKindCreate ∨ qp.Structure.GetKind = queryKindDrop ∨
        qp.Structure.GetKind = queryKindDelete ∨ qp.Structure.GetKind = queryKindInsert ∨
        qp.Structure.GetKind = queryKindUpdate) := fun hc => hb (h.mpr hc)
    have hb2 : qp.IsUpdate = false := by
      cases hq : qp.IsUpdate
      · rfl
      · exact absurd hq hb
    constructor
    · simp only [classifyQuery, hb2, Bool.false_eq_true, if_false]
      constructor
      · intro hc
        exact absurd hc (by simp)
      · intro hc
        exact absurd hc hd
    · simp only [classifyQuery, hb2, Bool.false_eq_true, if_false]
      tauto

/-- Claim C3: rollback synthesis returns DROP TABLE for a Create, the
escaped DELETE statement for an Insert (with the concrete users/id/a-quote-b
instance evaluating to the claimed text), and an empty, error-free result
for Drop, Update and Delete kinds. -/
theorem buildRollbackSQL_cases (qp : QueryParsed) :
    (qp.Structure.GetKind = queryKindCreate →
      qp.buildRollbackSQL = ("DROP TABLE " ++ qp.Structure.GetTable, none)) ∧
    (qp.Structure.GetKind = queryKindInsert →
      qp.buildRollbackSQL = ("DELETE FROM " ++ qp.Structure.GetTable ++ " WHERE " ++
        qp.KeyCol ++ "='" ++ Quote qp.KeyVal ++ "'", none)) ∧
    (qp.Structure.GetKind = queryKindInsert → qp.Structure.GetTable = "users" →
      qp.KeyCol = "id" → qp.KeyVal = "a'b" →
      (qp.buildRollbackSQL).1 = "DELETE FROM users WHERE id='a\\'b'") ∧
    ((qp.Structure.GetKind = queryKindDrop ∨ qp.Structure.GetKind = queryKindUpdate ∨
        qp.Structure.GetKind = queryKindDelete) →
      qp.buildRollbackSQL = ("", none)) := by
  refine ⟨?_, ?_, ?_, ?_⟩
  · intro h
    simp [QueryParsed.buildRollbackSQL, h]
  · intro h
    simp [QueryParsed.buildRollbackSQL, h, queryKindInsert, queryKindCreate, queryKindDrop]
  · intro h ht hk hv
    simp [QueryParsed.buildRollbackSQL, h, ht, hk, hv, queryKindInsert, queryKindCreate,
      queryKindDrop]
    rfl
  · intro h
    rcases h with h | h | h <;>
      simp [QueryParsed.buildRollbackSQL, h, queryKindUpdate, queryKindDelete,
        queryKindCreate, queryKindDrop, queryKindInsert]

/-- Claim C10: rollback synthesis is infallible — the error component of
`buildRollbackSQL` is nil for every parsed query, whatever its kind,
table, key column or key value. -/
theorem buildRollbackSQL_never_errors (qp : QueryParsed) :
    (qp.buildRollbackSQL).2 = none := by
  unfold QueryParsed.buildRollbackSQL
  split_ifs <;> rfl

/-- Claim C6: the built request is exactly the fixed-width command
identifier, the 4-byte little-endian payload length, the 4-byte
little-endian extra length, the payload bytes and the extra bytes (the
conditional append of a non-empty extra coincides with plain
concatenation, an empty extra appending nothing). -/
theorem doBuildCommandData_layout (command payload extra : List Nat) :
    doBuildCommandData command payload extra =
      commandToBytes command ++ putUint32LE payload.length ++
        putUint32LE extra.length ++ payload ++ extra := by
  rw [doBuildCommandData_flat]
  simp [List.append_assoc]

/-- Claim C3 witness: the Create and Insert cases of
`buildRollbackSQL_cases` evaluated at concrete parsed queries. -/
theorem buildRollbackSQL_cases_witness :
    (⟨"", [], [], [], "", "", [], ⟨"create", "t", []⟩⟩ :
        QueryParsed).buildRollbackSQL = ("DROP TABLE t", none) ∧
    ((⟨"", [], [], [], "id", "a'b", [], ⟨"insert", "users", []⟩⟩ :
        QueryParsed).buildRollbackSQL).1 = "DELETE FROM users WHERE id='a\\'b'" ∧
    (⟨"", [], [], [], "", "", [], ⟨"drop", "t", []⟩⟩ :
        QueryParsed).buildRollbackSQL = ("", none) := by
  refine ⟨?_, ?_, ?_⟩
  · exact (buildRollbackSQL_cases _).1 rfl
  · exact (buildRollbackSQL_cases _).2.2.1 rfl rfl rfl rfl
  · exact (buildRollbackSQL_cases _).2.2.2 (Or.inl rfl)

/-- Claim C7: a wait-response call that read zero bytes before the peer
closed the connection fails with the NoResponse error; it never succeeds
with an empty body. -/
theorem SendDataWaitResponse_empty_is_noResponse (α : Type)
    (decodeString : List Nat → Except String String)
    (decodePayload : Option (List Nat → Except String α)) :
    SendDataWaitResponse decodeString decodePayload [] =
      Except.error (NetError.noResponse
        "Received 0 bytes as a response. Expected at least 1 byte") := by
  rfl

/-- Claim C8: for a non-empty response, a first byte of 1 makes the call
decode the remaining bytes with the caller's decoder and succeed with the
decoded value; any other first byte makes it decode the remainder as a
string and surface that text verbatim as the call's error; a decode
failure in either branch yields CannotParseResponse. -/
theorem SendDataWaitResponse_status_semantics (α : Type)
    (decodeString : List Nat → Except String String)
    (dec : List Nat → Except String α) (st : Nat) (body : List Nat) :
    (∀ v, dec body = Except.ok v →
      SendDataWaitResponse decodeString (some dec) (1 :: body) = Except.ok (some v)) ∧
    (∀ e, dec body = Except.error e →
      SendDataWaitResponse decodeString (some dec) (1 :: body) =
        Except.error (NetError.canNotParseResponse e)) ∧
    (st ≠ 1 → ∀ s, decodeString body = Except.ok s →
      SendDataWaitResponse decodeString (some dec) (st :: body) =
        Except.error (NetError.remoteError s)) ∧
    (st ≠ 1 → ∀ e, decodeString body = Except.error e →
      SendDataWaitResponse decodeString (some dec) (st :: body) =
        Except.error (NetError.canNotParseResponse e)) := by
  refine ⟨?_, ?_, ?_, ?_⟩
  · intro v hv
    simp [SendDataWaitResponse, hv]
  · intro e he
    simp [SendDataWaitResponse, he]
  · intro hst s hs
    simp [SendDataWaitResponse, hst, hs]
  · intro hst e he
    simp [SendDataWaitResponse, hst, he]

/-- Claim C8 witness: a response with status byte 0 and a body whose
string decoding is "boom" surfaces as the remote error "boom", and a
status byte 1 with a successful payload decode succeeds with the decoded
value. -/
theorem SendDataWaitResponse_status_semantics_witness :
    SendDataWaitResponse (fun _ => Except.ok "boom")
        (some fun _ => Except.ok (7 : Nat)) (0 :: [98, 111, 111, 109]) =
      Except.error (NetError.remoteError "boom") ∧
    SendDataWaitResponse (fun _ => Except.ok "boom")
        (some fun _ => Except.ok (7 : Nat)) (1 :: [42]) =
      Except.ok (some 7) := by
  constructor
  · exact (SendDataWaitResponse_status_semantics Nat (fun _ => Except.ok "boom")
      (fun _ => Except.ok 7) 0 [98, 111, 111, 109]).2.2.1 (by decide) "boom" rfl
  · exact (SendDataWaitResponse_status_semantics Nat (fun _ => Except.ok "boom")
      (fun _ => Except.ok 7) 1 [42]).1 7 rfl

/-- Claim C9: decoding the encoded envelope yields back exactly the
original command name, payload and extra bytes, for every command name
that fits the fixed identifier width (and, being a name, does not end in
the padding byte) and all payload and extra byte sequences whose lengths
fit the 32-bit length fields, empty ones included. -/
theorem decodeEnvelope_doBuildCommandData_roundtrip (c p e : List Nat)
    (hc : c.length ≤ commandLength) (hz : c.getLast? ≠ some 0)
    (hp : p.length < 4294967296) (he : e.length < 4294967296) :
    decodeEnvelope (doBuildCommandData c p e) = some (c, p, e) := by
  rw [doBuildCommandData_flat]
  have hcb := commandToBytes_length c hc
  have hnot : ¬((commandToBytes c ++
      (putUint32LE p.length ++ (putUint32LE e.length ++ (p ++ e)))).length <
        commandLength + 8) := by
    simp [hcb, putUint32LE]
  unfold decodeEnvelope
  rw [if_neg hnot]
  have e1 : (commandToBytes c ++
      (putUint32LE p.length ++ (putUint32LE e.length ++ (p ++ e)))).take commandLength =
        commandToBytes c := List.take_left' hcb
  have e2 : (commandToBytes c ++
      (putUint32LE p.length ++ (putUint32LE e.length ++ (p ++ e)))).drop commandLength =
        putUint32LE p.length ++ (putUint32LE e.length ++ (p ++ e)) := List.drop_left' hcb
  have e3 : (putUint32LE p.length ++ (putUint32LE e.length ++ (p ++ e))).take 4 =
      putUint32LE p.length := List.take_left' (putUint32LE_length _)
  have e4 : (putUint32LE p.length ++ (putUint32LE e.length ++ (p ++ e))).drop 4 =
      putUint32LE e.length ++ (p ++ e) := List.drop_left' (putUint32LE_length _)
  have e5 : (putUint32LE e.length ++ (p ++ e)).take 4 = putUint32LE e.length :=
    List.take_left' (putUint32LE_length _)
  have e6 : (putUint32LE e.length ++ (p ++ e)).drop 4 = p ++ e :=
    List.drop_left' (putUint32LE_length _)
  simp only [e1, e2, e3, e4, e5, e6, readUint32LE_putUint32LE p.length hp,
    readUint32LE_putUint32LE e.length he, bytesToCommand_commandToBytes c hz]
  rw [if_pos (by simp)]
  simp [List.take_left, List.drop_left]

/-- Claim C9 witness: the round-trip theorem applied to the catalog
command `addr` (bytes 97,100,100,114) with a three-byte payload and an
empty extra, and to an empty payload with a two-byte extra. -/
theorem decodeEnvelope_doBuildCommandData_roundtrip_witness :
    decodeEnvelope (doBuildCommandData [97, 100, 100, 114] [1, 2, 3] []) =
      some ([97, 100, 100, 114], [1, 2, 3], []) ∧
    decodeEnvelope (doBuildCommandData [97, 100, 100, 114] [] [5, 6]) =
      some ([97, 100, 100, 114], [], [5, 6]) := by
  constructor
  · exact decodeEnvelope_doBuildCommandData_roundtrip [97, 100, 100, 114] [1, 2, 3] []
      (by decide) (by decide) (by decide) (by decide)
  · exact decodeEnvelope_doBuildCommandData_roundtrip [97, 100, 100, 114] [] [5, 6]
      (by decide) (by decide) (by decide) (by decide)

/-- Claim C2: evaluation of the extraction at the specification's own
example.  On a first comment containing
SIGN:c2lnbmF0dXJl;DATA:ZGF0YQ==;PUBKEY:cHVia2V5; the code returns all
three fields empty with a nil error — not the decoded signature, data and
pubkey bytes the claim states.  Each pattern has exactly one full match
in the comment, so the source's length-equals-two test (written for a
full-match-plus-capture-group result, but applied to
`FindAllString`, which returns full matches only) never fires, and no
decoding is attempted. -/
theorem parseInfoFromComments_spec_example :
    (⟨"", [], [], [], "", "", [],
        ⟨"insert", "t", ["SIGN:c2lnbmF0dXJl;DATA:ZGF0YQ==;PUBKEY:cHVia2V5;"]⟩⟩ :
      QueryParsed).parseInfoFromComments = ([], [], [], none) := by
  decide

/-- Claim C4: evaluation of the extraction at a comment whose single
SIGN marker carries a value that is not valid base64.  The code returns
no error and all-empty fields instead of the fatal decode error the claim
requires: with one full match the length-equals-two test fails and the
malformed value is never decoded. -/
theorem parseInfoFromComments_malformed_base64_silent :
    (⟨"", [], [], [], "", "", [], ⟨"insert", "t", ["SIGN:!!!;"]⟩⟩ :
      QueryParsed).parseInfoFromComments = ([], [], [], none) := by
  decide
